import Mathlib

/-!
Shallow embedding of the fusion core of
`src/point_cloud_odometry/src/PointCloudOdometry.cc` (class
`PointCloudOdometry`).  Scalars that the source holds in `float`/`double`
are modelled exactly: the control-flow and comparison logic over ℚ, and the
trigonometric rotation arithmetic of the fusion step over ℝ.  Point clouds
are never inspected by the fusion core (they are only copied and handed to
the external ICP service), so a cloud is modelled by an opaque tag `ℕ`.
-/

/-- A 3-vector, as used for translations (`gu::Vec3`). -/
structure Vec3 (α : Type) where
  x : α
  y : α
  z : α
deriving DecidableEq

/-- A 3x3 matrix with explicit entries, modelling the rotation blocks the
source manipulates (`Eigen::Matrix3f`, `gu::Rot3`, the top-left block of the
homogeneous `Eigen::Matrix4f`).  Entry `aij` is row `i`, column `j`. -/
structure Mat3 (α : Type) where
  a00 : α
  a01 : α
  a02 : α
  a10 : α
  a11 : α
  a12 : α
  a20 : α
  a21 : α
  a22 : α
deriving DecidableEq

/-- Matrix product, row-by-column. -/
def mulM {α : Type} [Mul α] [Add α] (A B : Mat3 α) : Mat3 α :=
  ⟨A.a00 * B.a00 + A.a01 * B.a10 + A.a02 * B.a20,
   A.a00 * B.a01 + A.a01 * B.a11 + A.a02 * B.a21,
   A.a00 * B.a02 + A.a01 * B.a12 + A.a02 * B.a22,
   A.a10 * B.a00 + A.a11 * B.a10 + A.a12 * B.a20,
   A.a10 * B.a01 + A.a11 * B.a11 + A.a12 * B.a21,
   A.a10 * B.a02 + A.a11 * B.a12 + A.a12 * B.a22,
   A.a20 * B.a00 + A.a21 * B.a10 + A.a22 * B.a20,
   A.a20 * B.a01 + A.a21 * B.a11 + A.a22 * B.a21,
   A.a20 * B.a02 + A.a21 * B.a12 + A.a22 * B.a22⟩

/-- The identity matrix (`Eigen::Matrix4f::Identity()`, rotation block). -/
def oneM {α : Type} [Zero α] [One α] : Mat3 α :=
  ⟨1, 0, 0, 0, 1, 0, 0, 0, 1⟩

/-- Matrix applied to a vector. -/
def mulMV {α : Type} [Mul α] [Add α] (A : Mat3 α) (v : Vec3 α) : Vec3 α :=
  ⟨A.a00 * v.x + A.a01 * v.y + A.a02 * v.z,
   A.a10 * v.x + A.a11 * v.y + A.a12 * v.z,
   A.a20 * v.x + A.a21 * v.y + A.a22 * v.z⟩

/-- Vector addition. -/
def addV {α : Type} [Add α] (u v : Vec3 α) : Vec3 α :=
  ⟨u.x + v.x, u.y + v.y, u.z + v.z⟩

/-- Determinant of a 3x3 matrix. -/
def detM (A : Mat3 ℚ) : ℚ :=
  A.a00 * (A.a11 * A.a22 - A.a12 * A.a21)
    - A.a01 * (A.a10 * A.a22 - A.a12 * A.a20)
    + A.a02 * (A.a10 * A.a21 - A.a11 * A.a20)

/-- Matrix inverse by the adjugate formula, modelling
`Eigen::Matrix4f::inverse()` applied at line 253 of the source to the
block-diagonal homogeneous matrix carrying an attitude (whose inverse is the
block-diagonal matrix of the 3x3 inverse).  On a singular input (which no
attitude is) the ℚ convention `1/0 = 0` yields the zero matrix where Eigen
would produce non-finite floats. -/
def invM (A : Mat3 ℚ) : Mat3 ℚ :=
  let d := detM A
  ⟨(A.a11 * A.a22 - A.a12 * A.a21) / d,
   (A.a02 * A.a21 - A.a01 * A.a22) / d,
   (A.a01 * A.a12 - A.a02 * A.a11) / d,
   (A.a12 * A.a20 - A.a10 * A.a22) / d,
   (A.a00 * A.a22 - A.a02 * A.a20) / d,
   (A.a02 * A.a10 - A.a00 * A.a12) / d,
   (A.a10 * A.a21 - A.a11 * A.a20) / d,
   (A.a01 * A.a20 - A.a00 * A.a21) / d,
   (A.a00 * A.a11 - A.a01 * A.a10) / d⟩

/-- A rigid transform: translation plus rotation block (`gu::Transform3`,
and the homogeneous `Eigen::Matrix4f` `T` of `UpdateICP`). -/
structure Transform3 (α : Type) where
  translation : Vec3 α
  rotation : Mat3 α
deriving DecidableEq

/-- The identity transform. -/
def idT : Transform3 ℚ := ⟨⟨0, 0, 0⟩, oneM⟩

/-- Modelled from the spec: `gu::PoseUpdate` (geometry_utils, whose body is
not part of the sources under verification) composes poses by applying the
incremental transform in the current estimate's frame:
`compose(current, T).translation = current.translation + current.rotation * T.translation`
and `compose(current, T).rotation = current.rotation * T.rotation`. -/
def poseUpdate (current incr : Transform3 ℚ) : Transform3 ℚ :=
  ⟨addV current.translation (mulMV current.rotation incr.translation),
   mulM current.rotation incr.rotation⟩

/-- One push into the bounded IMU FIFO (`SetImuData`, lines 190-196):
if the deque already holds 100 samples, the oldest (front) is popped before
the new sample is appended at the back. -/
def pushImu {α : Type} (buf : List α) (s : α) : List α :=
  if buf.length = 100 then buf.tail ++ [s] else buf ++ [s]

/-- One step of the timestamp-matching loop of `UpdateEstimate`
(lines 238-245).  The accumulator holds the attitude picked so far and the
running `min_ts_diff`; a sample replaces it exactly when its signed delta
`ts - target` is strictly negative and strictly smaller in absolute value
than the running delta. -/
def alignFold {α : Type} (target : ℚ) (acc : α × ℚ) (p : ℚ × α) : α × ℚ :=
  let d := p.1 - target
  if d < 0 ∧ |d| < |acc.2| then (p.2, d) else acc

/-- The timestamp matcher of `UpdateEstimate` (lines 234-245): the matched
attitude is initialized to element 0 of the snapshot and `min_ts_diff` to the
sentinel `1000`, then every element of the snapshot is folded through
`alignFold`.  An empty snapshot makes the source read `imu_deque_copy_[0]`
out of bounds; that is modelled as `none`.  Each snapshot element is a pair
`(timestamp, attitude)`. -/
def findAligned {α : Type} (snap : List (ℚ × α)) (target : ℚ) : Option (α × ℚ) :=
  match snap with
  | [] => none
  | s0 :: _ => some (snap.foldl (alignFold target) (s0.2, 1000))

/-- The fusion-mode self-check of `UpdateEstimate` (lines 259-272): only
when `check_imu_data_` is set, `use_imu_data_` is re-decided by comparing
`fabs(min_ts_diff)` against the hardcoded `max_ts_diff = 0.05`; otherwise
the current value of `use_imu_data_` is kept.  The externally configured
`imu_threshold_` parameter is loaded in `LoadParameters` but never read
here (nor anywhere else in the source). -/
def decideMode (checkImu : Bool) (useImu : Bool) (minTsDiff : ℚ) : Bool :=
  if checkImu then
    (if |minTsDiff| < |(1 / 20 : ℚ)| then true else false)
  else useImu

/-- The integration gate of `UpdateICP` (lines 394-396): accept when
thresholding is disabled, or when the incremental translation norm is at
most `max_translation_` and the Euler-ZYX angle norm of the incremental
rotation is at most `max_rotation_` (both comparisons inclusive).  The two
norm scalars, computed by the source through `Norm()`/`ToEulerZYX()`, are
taken here as inputs. -/
def gateAccept (thresholding : Bool) (tNorm rNorm maxT maxR : ℚ) : Bool :=
  !thresholding || (decide (tNorm ≤ maxT) && decide (rNorm ≤ maxR))

/-- Configuration fields consumed by the fusion core (`LoadParameters`).
`use_imu_data_` is runtime-mutable state, not configuration, and lives in
`OdomState`. -/
structure OdomConfig where
  checkImu : Bool
  imuThreshold : ℚ
  transformThresholding : Bool
  maxTranslation : ℚ
  maxRotation : ℚ

/-- Per-cycle external inputs of `UpdateICP`: the transform returned by the
external ICP registration, the two norm scalars the gate compares (computed
by the source from the incremental estimate via square roots and Euler
extraction), and the fused-rotation computation (whose exact real-number
content is embedded separately over ℝ as `fuseRotation`; its value never
influences control flow). -/
structure CycleExt where
  icpT : Transform3 ℚ
  tNorm : ℚ
  rNorm : ℚ
  fuseR : Mat3 ℚ → Mat3 ℚ → Mat3 ℚ

/-- The mutable state of a `PointCloudOdometry` instance.  `imuDeque`
elements are `(timestamp, attitude)` pairs (`imu_data`); `deltaQueue` is
`imu_attitude_deque_`; `query`/`reference` hold opaque cloud tags. -/
structure OdomState where
  initialized : Bool
  imuDataReceived : Bool
  imuFirstAttitude : Mat3 ℚ
  imuPreviousAttitude : Mat3 ℚ
  imuCurrentAttitude : Mat3 ℚ
  imuDeque : List (ℚ × Mat3 ℚ)
  deltaQueue : List (Mat3 ℚ)
  useImu : Bool
  query : Option ℕ
  reference : Option ℕ
  incremental : Transform3 ℚ
  integrated : Transform3 ℚ

/-- The state right after construction and `Initialize` (lines 56-59, 76):
nothing initialized, buffers empty, `use_imu_data_` at its configured
value, both pose estimates at the configured initial pose (identity when no
fiducial is given). -/
def mkInitialState (useImu : Bool) (init : Transform3 ℚ) : OdomState :=
  ⟨false, false, oneM, oneM, oneM, [], [], useImu, none, none, idT, init⟩

/-- `SetImuData` (lines 182-203): push the sample into the bounded FIFO,
and on the very first reception also latch `imu_first_attitude_` and set
`imu_data_has_been_received_`. -/
def setImuData (st : OdomState) (att : Mat3 ℚ) (ts : ℚ) : OdomState :=
  let st1 := { st with imuDeque := pushImu st.imuDeque (ts, att) }
  if st1.imuDataReceived then st1
  else { st1 with imuFirstAttitude := att, imuDataReceived := true }

/-- The tail of `UpdateICP` (lines 385-409): store the incremental
estimate, then fold it into the integrated estimate exactly when the gate
accepts; on reject the integrated estimate is left untouched while the
incremental estimate keeps the rejected transform. -/
def integrateInto (cfg : OdomConfig) (ext : CycleExt) (Tinc : Transform3 ℚ)
    (st : OdomState) : OdomState :=
  let st1 := { st with incremental := Tinc }
  if gateAccept cfg.transformThresholding ext.tNorm ext.rNorm
      cfg.maxTranslation cfg.maxRotation
  then { st1 with integrated := poseUpdate st1.integrated Tinc }
  else st1

/-- `UpdateICP` (lines 305-424) at the fusion level.  When `use_imu_data_`
is set, the source unconditionally reads and pops the front of
`imu_attitude_deque_` (lines 343-344) with no emptiness check; the
undefined behaviour of `front()` on an empty deque is modelled as `none`.
With a delta available the registration rotation block is replaced by the
fused rotation, translation untouched (line 373); with `use_imu_data_`
unset the registration transform is used unchanged (line 378). -/
def updateICPModel (cfg : OdomConfig) (ext : CycleExt) (st : OdomState) :
    Option OdomState :=
  if st.useImu then
    match st.deltaQueue with
    | [] => none
    | d :: rest =>
        let Tf : Transform3 ℚ :=
          ⟨ext.icpT.translation, ext.fuseR d ext.icpT.rotation⟩
        some (integrateInto cfg ext Tf { st with deltaQueue := rest })
  else
    some (integrateInto cfg ext ext.icpT st)

/-- `UpdateEstimate` (lines 205-285).  Returns the successor state and the
boolean the method returns (`false` = no update produced).  In the
uninitialized branch the scan is always stored as the query cloud and no
registration is attempted; with IMU use configured the machine only
initializes once an orientation sample has been received.  In the
initialized branch: match the timestamp against the snapshot (out-of-bounds
on an empty snapshot, modelled `none`), record one rotation delta
`current * previous.inverse()` at the back of the delta queue, re-decide the
fusion mode, advance the scan pair, update the retained previous attitude,
and run `UpdateICP` (which always returns `true`). -/
def updateEstimate (cfg : OdomConfig) (ext : CycleExt) (st : OdomState)
    (pc : ℕ) (ts : ℚ) : Option (OdomState × Bool) :=
  if st.initialized = false then
    if st.useImu then
      if st.imuDataReceived then
        some ({ st with query := some pc,
                        imuPreviousAttitude := st.imuFirstAttitude,
                        initialized := true }, false)
      else
        some ({ st with query := some pc }, false)
    else
      some ({ st with query := some pc, initialized := true }, false)
  else
    match findAligned st.imuDeque ts with
    | none => none
    | some (att, d) =>
        let delta := mulM att (invM st.imuPreviousAttitude)
        let st1 := { st with
          imuCurrentAttitude := att,
          deltaQueue := st.deltaQueue ++ [delta],
          useImu := decideMode cfg.checkImu st.useImu d,
          reference := st.query,
          query := some pc,
          imuPreviousAttitude := att }
        (updateICPModel cfg ext st1).map (fun s => (s, true))

/-- Four-quadrant arctangent, the mathematical function computed by
`tf::tfAtan2`/`std::atan2`: the argument of the complex number `x + y i`,
in `(-pi, pi]`. -/
noncomputable def atan2 (y x : ℝ) : ℝ :=
  Complex.arg (Complex.ofReal x + Complex.ofReal y * Complex.I)

/-- Rotation about the x axis by angle `a`
(`Eigen::AngleAxisf(a, Eigen::Vector3f::UnitX())` as a matrix). -/
noncomputable def RxM (a : ℝ) : Mat3 ℝ :=
  ⟨1, 0, 0,
   0, Real.cos a, -Real.sin a,
   0, Real.sin a, Real.cos a⟩

/-- Rotation about the y axis by angle `a`
(`Eigen::AngleAxisf(a, Eigen::Vector3f::UnitY())` as a matrix). -/
noncomputable def RyM (a : ℝ) : Mat3 ℝ :=
  ⟨Real.cos a, 0, Real.sin a,
   0, 1, 0,
   -Real.sin a, 0, Real.cos a⟩

/-- Rotation about the z axis by angle `a`
(`Eigen::AngleAxisf(a, Eigen::Vector3f::UnitZ())` as a matrix). -/
noncomputable def RzM (a : ℝ) : Mat3 ℝ :=
  ⟨Real.cos a, -Real.sin a, 0,
   Real.sin a, Real.cos a, 0,
   0, 0, 1⟩

/-- Roll/pitch/yaw extraction as performed in `UpdateICP` through
`tf::Matrix3x3::getRPY` (generic branch `|M20| < 1`; the source converts
matrix to quaternion and back first, which is the identity on rotation
matrices): for the ZYX convention `M = Rz(yaw) Ry(pitch) Rx(roll)`,
`roll = atan2(M21, M22)`, `pitch = asin(-M20)`, `yaw = atan2(M10, M00)`
(the divisions by `cos(pitch) > 0` in the tf source do not change the
`atan2` values).  Returned as `(roll, pitch, yaw)`. -/
noncomputable def getRPY (M : Mat3 ℝ) : ℝ × ℝ × ℝ :=
  (atan2 M.a21 M.a22, Real.arcsin (-M.a20), atan2 M.a10 M.a00)

/-- The fusion composite of `UpdateICP` (lines 363-371): roll and pitch
extracted from the IMU delta, yaw extracted from the registration rotation,
recomposed as ordered single-axis rotations
`AngleAxis(roll, X) * AngleAxis(pitch, Y) * AngleAxis(yaw, Z)`. -/
noncomputable def fuseRotation (delta TR : Mat3 ℝ) : Mat3 ℝ :=
  mulM (mulM (RxM (getRPY delta).1) (RyM (getRPY delta).2.1))
    (RzM (getRPY TR).2.2)

/-- The full fusion step on the registration transform `T` (line 373):
the rotation block is replaced by the composite, the translation column is
left untouched. -/
noncomputable def fuse (T : Transform3 ℝ) (delta : Mat3 ℝ) : Transform3 ℝ :=
  ⟨T.translation, fuseRotation delta T.rotation⟩

/-- The angle `arcsin (4/5)`, whose sine is `4/5` and cosine `3/5`; used to
build a synthetic rotation with known Euler angles. -/
noncomputable def aCX : ℝ := Real.arcsin (4 / 5)

/-- The rotation `Rz(aCX) * Ry(aCX) * Rx(aCX)`: a synthetic IMU delta with
known ZYX Euler angles `roll = pitch = yaw = arcsin (4/5)`, written out with
its exact rational entries. -/
noncomputable def deltaCX : Mat3 ℝ :=
  ⟨9/25, -12/125, 116/125,
   12/25, 109/125, -12/125,
   -4/5, 12/25, 9/25⟩

/-- An external event driving a `PointCloudOdometry` instance: an IMU
sample delivered to `SetImuData`, or a scan delivered to `UpdateEstimate`
together with that cycle's external inputs. -/
inductive Ev where
  | imu (att : Mat3 ℚ) (ts : ℚ)
  | scan (ext : CycleExt) (pc : ℕ) (ts : ℚ)

/-- One event step; a scan step can hit the modelled undefined behaviour. -/
def evStep (cfg : OdomConfig) (st : OdomState) : Ev → Option OdomState
  | Ev.imu att ts => some (setImuData st att ts)
  | Ev.scan ext pc ts => (updateEstimate cfg ext st pc ts).map Prod.fst

/-- Run a sequence of events, propagating undefined behaviour. -/
def evRun (cfg : OdomConfig) (st : OdomState) : List Ev → Option OdomState
  | [] => some st
  | e :: es =>
      match evStep cfg st e with
      | none => none
      | some st1 => evRun cfg st1 es

/-- A trivial per-cycle external input: identity registration transform,
zero norms, fusion that keeps the registration rotation. -/
def extId : CycleExt := ⟨idT, 0, 0, fun _ r => r⟩

/-- A configuration with the IMU self-check and transform thresholding both
disabled. -/
def cfgOff : OdomConfig := ⟨false, 0, false, 1, 1⟩

/-- A configuration with transform thresholding enabled,
`max_translation_ = 3/10` and `max_rotation_ = 1` (the rejection scenario of
the specification). -/
def cfgGate : OdomConfig := ⟨false, 0, true, 3/10, 1⟩

/-- An initialized state holding one IMU sample (timestamp 0, identity
attitude), with `use_imu_data_` set. -/
def stInit9 : OdomState :=
  { mkInitialState true idT with initialized := true, imuDeque := [((0 : ℚ), oneM)] }

/-- An initialized state with `use_imu_data_` unset and an empty delta
queue. -/
def stInit8 : OdomState :=
  { mkInitialState false idT with initialized := true }

/-- An initialized state with `use_imu_data_` set and an empty delta
queue. -/
def stInit8b : OdomState :=
  { mkInitialState true idT with initialized := true }

/-! ## Helper lemmas -/

/-- `integrateInto` always stores the gated transform as the incremental
estimate. -/
@[simp] theorem integrateInto_incremental (cfg : OdomConfig) (ext : CycleExt)
    (Tinc : Transform3 ℚ) (st : OdomState) :
    (integrateInto cfg ext Tinc st).incremental = Tinc := by
  unfold integrateInto; split <;> rfl

/-- `integrateInto` never changes the initialization flag. -/
@[simp] theorem integrateInto_initialized (cfg : OdomConfig) (ext : CycleExt)
    (Tinc : Transform3 ℚ) (st : OdomState) :
    (integrateInto cfg ext Tinc st).initialized = st.initialized := by
  unfold integrateInto; split <;> rfl

/-- `integrateInto` never changes the fusion flag. -/
@[simp] theorem integrateInto_useImu (cfg : OdomConfig) (ext : CycleExt)
    (Tinc : Transform3 ℚ) (st : OdomState) :
    (integrateInto cfg ext Tinc st).useImu = st.useImu := by
  unfold integrateInto; split <;> rfl

/-- `integrateInto` never changes the delta queue. -/
@[simp] theorem integrateInto_deltaQueue (cfg : OdomConfig) (ext : CycleExt)
    (Tinc : Transform3 ℚ) (st : OdomState) :
    (integrateInto cfg ext Tinc st).deltaQueue = st.deltaQueue := by
  unfold integrateInto; split <;> rfl

/-- `integrateInto` never changes the IMU sample buffer. -/
@[simp] theorem integrateInto_imuDeque (cfg : OdomConfig) (ext : CycleExt)
    (Tinc : Transform3 ℚ) (st : OdomState) :
    (integrateInto cfg ext Tinc st).imuDeque = st.imuDeque := by
  unfold integrateInto; split <;> rfl

/-- On a rejecting gate, `integrateInto` leaves the integrated estimate
untouched. -/
theorem integrateInto_reject (cfg : OdomConfig) (ext : CycleExt)
    (Tinc : Transform3 ℚ) (st : OdomState)
    (h : gateAccept cfg.transformThresholding ext.tNorm ext.rNorm
        cfg.maxTranslation cfg.maxRotation = false) :
    (integrateInto cfg ext Tinc st).integrated = st.integrated := by
  unfold integrateInto
  rw [h]
  rfl

/-- `updateICPModel` succeeds whenever the delta queue is nonempty. -/
theorem updateICPModel_isSome (cfg : OdomConfig) (ext : CycleExt)
    (st : OdomState) (h : st.deltaQueue ≠ []) :
    ∃ s, updateICPModel cfg ext st = some s := by
  unfold updateICPModel
  cases hu : st.useImu with
  | false => exact ⟨_, rfl⟩
  | true =>
      cases hq : st.deltaQueue with
      | nil => exact absurd hq h
      | cons d rest => exact ⟨_, rfl⟩

/-- Field bookkeeping for `updateICPModel`: a successful run preserves the
initialization flag, the fusion flag and the IMU buffer, and pops exactly
the front of the delta queue when fusion is active, nothing otherwise. -/
theorem updateICPModel_proj (cfg : OdomConfig) (ext : CycleExt)
    (st s : OdomState) (h : updateICPModel cfg ext st = some s) :
    s.initialized = st.initialized ∧ s.useImu = st.useImu ∧
    s.imuDeque = st.imuDeque ∧
    ((st.useImu = true ∧ s.deltaQueue = st.deltaQueue.tail) ∨
     (st.useImu = false ∧ s.deltaQueue = st.deltaQueue)) := by
  unfold updateICPModel at h
  cases hu : st.useImu with
  | false =>
      rw [hu] at h
      simp only [Bool.false_eq_true, if_false, Option.some.injEq] at h
      subst h
      simp [hu]
  | true =>
      rw [hu] at h
      simp only [if_true] at h
      cases hq : st.deltaQueue with
      | nil => rw [hq] at h; simp at h
      | cons d rest =>
          rw [hq] at h
          simp only [Option.some.injEq] at h
          subst h
          simp [hq]

/-! ## Claim theorems -/

/-- C3: when transform thresholding is disabled the gate always accepts;
when enabled it accepts exactly when the translation norm is at most
`max_translation_` and the Euler-angle norm is at most `max_rotation_`,
both bounds inclusive: equality on both norms is accepted, and exceeding
either bound by any positive epsilon is rejected. -/
theorem C3_gate_inclusive (tN rN mT mR : ℚ) :
    gateAccept false tN rN mT mR = true ∧
    (gateAccept true tN rN mT mR = true ↔ (tN ≤ mT ∧ rN ≤ mR)) ∧
    gateAccept true mT mR mT mR = true ∧
    (∀ e : ℚ, 0 < e →
      gateAccept true (mT + e) rN mT mR = false ∧
      gateAccept true tN (mR + e) mT mR = false) := by
  refine ⟨rfl, ?_, ?_, ?_⟩
  · simp [gateAccept]
  · simp [gateAccept]
  · intro e he
    constructor <;> simp [gateAccept] <;> intro hle
    · exact absurd hle (by linarith)
    · linarith

/-- Witness for C3 at concrete inputs: thresholds `maxT = 3`, `maxR = 9`,
translation norm `3 + 1` exceeding the bound is rejected. -/
theorem C3_gate_inclusive_witness : gateAccept true (3 + 1) 0 3 9 = false :=
  ((C3_gate_inclusive 0 0 3 9).2.2.2 1 (by norm_num)).1

/-- C4: on a cycle whose incremental transform is rejected by the gate, the
integrated estimate keeps exactly its prior value while the rejected
transform is still stored as that cycle's incremental estimate. -/
theorem C4_reject_keeps_integrated (cfg : OdomConfig) (ext : CycleExt)
    (Tinc : Transform3 ℚ) (st : OdomState)
    (h : gateAccept cfg.transformThresholding ext.tNorm ext.rNorm
        cfg.maxTranslation cfg.maxRotation = false) :
    (integrateInto cfg ext Tinc st).integrated = st.integrated ∧
    (integrateInto cfg ext Tinc st).incremental = Tinc :=
  ⟨integrateInto_reject cfg ext Tinc st h, integrateInto_incremental cfg ext Tinc st⟩

/-- Witness for C4, the rejection scenario of the specification:
thresholding enabled, translation norm `1/2` against `max_translation_ =
3/10`; the incremental estimate reports the rejected transform, the
integrated estimate is unchanged. -/
theorem C4_reject_keeps_integrated_witness :
    (integrateInto cfgGate ⟨⟨⟨1/2, 0, 0⟩, oneM⟩, 1/2, 0, fun _ r => r⟩
        ⟨⟨1/2, 0, 0⟩, oneM⟩ (mkInitialState true idT)).integrated =
      (mkInitialState true idT).integrated ∧
    (integrateInto cfgGate ⟨⟨⟨1/2, 0, 0⟩, oneM⟩, 1/2, 0, fun _ r => r⟩
        ⟨⟨1/2, 0, 0⟩, oneM⟩ (mkInitialState true idT)).incremental =
      ⟨⟨1/2, 0, 0⟩, oneM⟩ :=
  C4_reject_keeps_integrated cfgGate _ _ _ (by norm_num [cfgGate, gateAccept])

/-- C5 counterexample: with the self-check enabled, a configured
`imu_threshold_` of `1` and a signed time delta of `1/2` — within the
configured threshold under either a strict or inclusive reading — the code
still disables fusion, because the comparison at line 263 uses the
hardcoded `max_ts_diff = 0.05`, not the configured `imu_threshold_` (which
no code after `LoadParameters` ever reads). -/
theorem C5_counterexample :
    decideMode true true (1/2) = false ∧
    |(1/2 : ℚ)| < 1 ∧ |(1/2 : ℚ)| ≤ 1 := by
  have h1 : |(1/2 : ℚ)| = 1/2 := abs_of_pos (by norm_num)
  have h2 : |(1/20 : ℚ)| = 1/20 := abs_of_pos (by norm_num)
  have hd : decideMode true true (1/2) =
      if |(1/2 : ℚ)| < |(1/20 : ℚ)| then true else false := rfl
  rw [hd, h1, h2, if_neg (by norm_num)]
  norm_num

/-- C5 as amended: with `check_imu_data_` enabled, `use_imu_data_` becomes
true exactly when the absolute time delta is strictly below the hardcoded
`1/20` (0.05), independent of the configured `imu_threshold_`; with the
check disabled, `use_imu_data_` keeps its current value. -/
theorem C5_decideMode_amended :
    (∀ (u : Bool) (d : ℚ), decideMode true u d = decide (|d| < 1/20)) ∧
    (∀ (u : Bool) (d : ℚ), decideMode false u d = u) := by
  have h20 : |(1/20 : ℚ)| = 1/20 := abs_of_pos (by norm_num)
  constructor
  · intro u d
    have hd : decideMode true u d =
        if |d| < |(1/20 : ℚ)| then true else false := rfl
    rw [hd, h20]
    by_cases h : |d| < (1/20 : ℚ)
    · rw [if_pos h]
      exact (decide_eq_true h).symm
    · rw [if_neg h]
      exact (decide_eq_false h).symm
  · intro u d
    rfl

/-- Folding any push sequence into an empty buffer through `pushImu` keeps
exactly the trailing 100 pushes, in arrival order. -/
theorem pushImu_foldl {α : Type} (ss : List α) :
    ss.foldl pushImu [] = ss.drop (ss.length - 100) := by
  induction ss using List.reverseRecOn with
  | nil => rfl
  | append_singleton l a ih =>
      rw [List.foldl_append]
      simp only [List.foldl_cons, List.foldl_nil]
      rw [ih]
      by_cases h : 100 ≤ l.length
      · have hlen : (l.drop (l.length - 100)).length = 100 := by
          rw [List.length_drop]
          omega
        rw [pushImu, if_pos hlen, List.tail_drop]
        have h1 : l.length - 100 + 1 = l.length + 1 - 100 := by omega
        have h2 : (l ++ [a]).length = l.length + 1 := by simp
        rw [h1, h2]
        rw [List.drop_append_of_le_length (by omega)]
      · have hlen : (l.drop (l.length - 100)).length ≠ 100 := by
          rw [List.length_drop]
          omega
        have h0 : l.length - 100 = 0 := by omega
        rw [pushImu, if_neg hlen, h0, List.drop_zero]
        have h2 : (l ++ [a]).length = l.length + 1 := by simp
        have h3 : (l ++ [a]).length - 100 = 0 := by omega
        rw [h3, List.drop_zero]

/-- C7: pushing through `pushImu` is total (always succeeds), the buffer
never exceeds 100 samples, and after more than 100 pushes from empty it
holds exactly the 100 most recently pushed samples in arrival order (the
trailing 100 of the push sequence), the older ones having been evicted. -/
theorem C7_buffer_fifo {α : Type} :
    (∀ ss : List α, ss.foldl pushImu [] = ss.drop (ss.length - 100)) ∧
    (∀ ss : List α, (ss.foldl pushImu []).length ≤ 100) ∧
    (∀ ss : List α, 100 < ss.length →
      (ss.foldl pushImu []).length = 100 ∧
      ss.foldl pushImu [] = ss.drop (ss.length - 100)) := by
  refine ⟨pushImu_foldl, ?_, ?_⟩
  · intro ss
    rw [pushImu_foldl, List.length_drop]
    omega
  · intro ss h
    refine ⟨?_, pushImu_foldl ss⟩
    rw [pushImu_foldl, List.length_drop]
    omega

/-- Witness for C7: a push sequence of length 101 leaves exactly 100
samples in the buffer. -/
theorem C7_buffer_fifo_witness :
    ((List.range 101).foldl pushImu []).length = 100 :=
  (C7_buffer_fifo.2.2 (List.range 101) (by simp)).1

/-- C2 counterexample: a snapshot holding exactly one sample whose
timestamp equals the target.  Its signed delta is `0` — non-positive, so
the claim says it is selected with delta `0` — but the loop condition at
line 241 requires a strictly negative delta, so the code keeps the
sentinel: the result is the default attitude with delta `1000`, not the
claimed `(sample, 0)`. -/
theorem C2_counterexample :
    findAligned [((10 : ℚ), (0 : ℕ))] 10 = some (0, 1000) ∧
    findAligned [((10 : ℚ), (0 : ℕ))] 10 ≠ some (0, 0) ∧
    (10 : ℚ) - 10 ≤ 0 := by
  have h : findAligned [((10 : ℚ), (0 : ℕ))] 10 = some (0, 1000) := by
    norm_num [findAligned, alignFold]
  refine ⟨h, ?_, by norm_num⟩
  rw [h]
  intro hc
  simp only [Option.some.injEq, Prod.mk.injEq] at hc
  exact absurd hc.2 (by norm_num)

/-- Invariant of the matching loop: the accumulator either survives the
whole fold, or is replaced by some list element with strictly negative
delta whose absolute delta improves on the initial one; and the final
absolute delta is at or below that of every list element that beats the
initial accumulator. -/
theorem alignFold_invariant {α : Type} (t : ℚ) (l : List (ℚ × α)) (acc : α × ℚ) :
    (l.foldl (alignFold t) acc = acc ∨
      ∃ p ∈ l, l.foldl (alignFold t) acc = (p.2, p.1 - t) ∧
        p.1 - t < 0 ∧ |p.1 - t| < |acc.2|) ∧
    (∀ q ∈ l, q.1 - t < 0 → |q.1 - t| < |acc.2| →
      |(l.foldl (alignFold t) acc).2| ≤ |q.1 - t|) := by
  induction l generalizing acc with
  | nil => simp
  | cons x l ih =>
      simp only [List.foldl_cons]
      by_cases hc : x.1 - t < 0 ∧ |x.1 - t| < |acc.2|
      · have ha : alignFold t acc x = (x.2, x.1 - t) := by
          simp [alignFold, hc]
        rw [ha]
        rcases ih (x.2, x.1 - t) with ⟨h1, h2⟩
        have habs : |(l.foldl (alignFold t) (x.2, x.1 - t)).2| ≤ |x.1 - t| := by
          rcases h1 with he | ⟨p, hp, he, hneg, hlt⟩
          · rw [he]
          · rw [he]
            exact le_of_lt hlt
        constructor
        · rcases h1 with he | ⟨p, hp, he, hneg, hlt⟩
          · right
            exact ⟨x, List.mem_cons_self x l, he, hc.1, hc.2⟩
          · right
            exact ⟨p, List.mem_cons_of_mem x hp, he, hneg, lt_trans hlt hc.2⟩
        · intro q hq hqneg hqlt
          rcases List.mem_cons.mp hq with rfl | hql
          · exact habs
          · by_cases hlt2 : |q.1 - t| < |x.1 - t|
            · exact h2 q hql hqneg hlt2
            · exact le_trans habs (le_of_not_lt hlt2)
      · have ha : alignFold t acc x = acc := by
          simp only [alignFold]
          rw [if_neg hc]
        rw [ha]
        rcases ih acc with ⟨h1, h2⟩
        constructor
        · rcases h1 with he | ⟨p, hp, he, hneg, hlt⟩
          · left
            exact he
          · right
            exact ⟨p, List.mem_cons_of_mem x hp, he, hneg, hlt⟩
        · intro q hq hqneg hqlt
          rcases List.mem_cons.mp hq with rfl | hql
          · exact absurd ⟨hqneg, hqlt⟩ hc
          · exact h2 q hql hqneg hqlt

/-- C2 as amended: on a nonempty snapshot, `findAligned` selects among the
samples whose timestamp is strictly before the target and whose absolute
delta is under the `1000`-second sentinel the one with minimal absolute
delta; when no such sample exists (including samples exactly at the target,
and causally-prior samples older than the sentinel) it returns the
snapshot's oldest element's attitude with the sentinel delta `1000`. -/
theorem C2_findAligned_amended {α : Type} (s0 : ℚ × α) (rest : List (ℚ × α)) (t : ℚ) :
    ∃ r : α × ℚ, findAligned (s0 :: rest) t = some r ∧
      (((∀ p ∈ s0 :: rest, ¬(p.1 - t < 0 ∧ |p.1 - t| < 1000)) ∧ r = (s0.2, 1000)) ∨
       (∃ p ∈ s0 :: rest, r = (p.2, p.1 - t) ∧ p.1 - t < 0 ∧ |p.1 - t| < 1000 ∧
         ∀ q ∈ s0 :: rest, q.1 - t < 0 → |q.1 - t| < 1000 → |p.1 - t| ≤ |q.1 - t|)) := by
  have habs : |(1000 : ℚ)| = 1000 := abs_of_pos (by norm_num)
  rcases alignFold_invariant t (s0 :: rest) (s0.2, (1000 : ℚ)) with ⟨h1, h2⟩
  refine ⟨(s0 :: rest).foldl (alignFold t) (s0.2, 1000), rfl, ?_⟩
  rcases h1 with he | ⟨p, hp, he, hneg, hlt⟩
  · left
    refine ⟨?_, he⟩
    intro p hp hcand
    have h3 := h2 p hp hcand.1 (by rw [habs]; exact hcand.2)
    rw [he] at h3
    simp only [habs] at h3
    linarith [hcand.2]
  · right
    refine ⟨p, hp, he, hneg, ?_, ?_⟩
    · rw [habs] at hlt
      exact hlt
    · intro q hq hqneg hqlt
      have h3 := h2 q hq hqneg (by rw [habs]; exact hqlt)
      rw [he] at h3
      exact h3

/-- Unfolding of the initialized branch of `updateEstimate`: with a
nonempty snapshot whose matching loop yields `(att, d)`, the cycle records
one delta, re-decides the fusion mode, advances the scan pair, and runs
`UpdateICP`. -/
theorem updateEstimate_init_step (cfg : OdomConfig) (ext : CycleExt)
    (st : OdomState) (pc : ℕ) (ts : ℚ) (hinit : st.initialized = true)
    (s0 : ℚ × Mat3 ℚ) (srest : List (ℚ × Mat3 ℚ))
    (hq : st.imuDeque = s0 :: srest) (att : Mat3 ℚ) (d : ℚ)
    (hpr : (s0 :: srest).foldl (alignFold ts) (s0.2, 1000) = (att, d)) :
    updateEstimate cfg ext st pc ts =
      (updateICPModel cfg ext
        { st with
          imuCurrentAttitude := att,
          deltaQueue := st.deltaQueue ++ [mulM att (invM st.imuPreviousAttitude)],
          useImu := decideMode cfg.checkImu st.useImu d,
          reference := st.query,
          query := some pc,
          imuPreviousAttitude := att }).map (fun s => (s, true)) := by
  unfold updateEstimate
  rw [if_neg (by rw [hinit]; simp), hq]
  have h1 : findAligned (s0 :: srest) ts = some (att, d) := by
    rw [findAligned, hpr]
  rw [h1]

/-- In the initialized state with an empty IMU buffer, `updateEstimate`
hits the modelled out-of-bounds read. -/
theorem updateEstimate_none_of_empty (cfg : OdomConfig) (ext : CycleExt)
    (st : OdomState) (pc : ℕ) (ts : ℚ) (h1 : st.initialized = true)
    (h2 : st.imuDeque = []) : updateEstimate cfg ext st pc ts = none := by
  unfold updateEstimate
  rw [if_neg (by rw [h1]; simp), h2]
  rfl

/-- C10: `updateEstimate` in the initialized state unconditionally reads
element 0 of the IMU-buffer snapshot as the default match and iterates the
snapshot — with no emptiness guard and regardless of whether IMU use is
enabled — so the cycle is free of the modelled out-of-bounds access exactly
when the buffer holds at least one sample; in the uninitialized state it
never faults. -/
theorem C10_snapshot_access (cfg : OdomConfig) (ext : CycleExt)
    (st : OdomState) (pc : ℕ) (ts : ℚ) :
    updateEstimate cfg ext st pc ts = none ↔
      (st.initialized = true ∧ st.imuDeque = []) := by
  constructor
  · intro h
    by_cases hinit : st.initialized = false
    · exfalso
      unfold updateEstimate at h
      rw [if_pos hinit] at h
      revert h
      split
      · split <;> simp
      · simp
    · have hinit2 : st.initialized = true := by
        revert hinit; cases st.initialized <;> simp
      refine ⟨hinit2, ?_⟩
      cases hq : st.imuDeque with
      | nil => rfl
      | cons s0 srest =>
          exfalso
          rcases hpr : (s0 :: srest).foldl (alignFold ts) (s0.2, 1000) with ⟨att, d⟩
          rw [updateEstimate_init_step cfg ext st pc ts hinit2 s0 srest hq att d hpr] at h
          obtain ⟨s, hs⟩ := updateICPModel_isSome cfg ext
            { st with
              imuCurrentAttitude := att,
              deltaQueue := st.deltaQueue ++ [mulM att (invM st.imuPreviousAttitude)],
              useImu := decideMode cfg.checkImu st.useImu d,
              reference := st.query,
              query := some pc,
              imuPreviousAttitude := att } (by simp)
          rw [hs] at h
          simp at h
  · rintro ⟨h1, h2⟩
    exact updateEstimate_none_of_empty cfg ext st pc ts h1 h2

/-- `SetImuData` never touches the initialization flag. -/
theorem setImuData_initialized (st : OdomState) (att : Mat3 ℚ) (ts : ℚ) :
    (setImuData st att ts).initialized = st.initialized := by
  simp only [setImuData]
  split <;> rfl

/-- A successful `updateEstimate` from an initialized state stays
initialized. -/
theorem updateEstimate_initialized (cfg : OdomConfig) (ext : CycleExt)
    (st : OdomState) (pc : ℕ) (ts : ℚ) (st2 : OdomState) (b : Bool)
    (hinit : st.initialized = true)
    (h : updateEstimate cfg ext st pc ts = some (st2, b)) :
    st2.initialized = true := by
  cases hq : st.imuDeque with
  | nil =>
      exfalso
      have hnone : updateEstimate cfg ext st pc ts = none :=
        updateEstimate_none_of_empty cfg ext st pc ts hinit hq
      rw [hnone] at h
      exact Option.noConfusion h
  | cons s0 srest =>
      rcases hpr : (s0 :: srest).foldl (alignFold ts) (s0.2, 1000) with ⟨att, d⟩
      rw [updateEstimate_init_step cfg ext st pc ts hinit s0 srest hq att d hpr] at h
      rw [Option.map_eq_some'] at h
      obtain ⟨s, hs, heq⟩ := h
      have h2 := (updateICPModel_proj _ _ _ _ hs).1
      have h3 : st2 = s := by
        have := congrArg Prod.fst heq
        exact this.symm
      rw [h3, h2, hinit]

/-- A successful event step from an initialized state stays initialized. -/
theorem evStep_initialized (cfg : OdomConfig) (st : OdomState) (e : Ev)
    (st1 : OdomState) (hinit : st.initialized = true)
    (h : evStep cfg st e = some st1) : st1.initialized = true := by
  cases e with
  | imu att ts =>
      simp only [evStep] at h
      have h2 : setImuData st att ts = st1 := Option.some.inj h
      rw [← h2, setImuData_initialized, hinit]
  | scan ext pc ts =>
      simp only [evStep] at h
      cases hup : updateEstimate cfg ext st pc ts with
      | none => rw [hup] at h; exact Option.noConfusion h
      | some r =>
          rcases r with ⟨st2, b⟩
          rw [hup] at h
          have h2 : st2 = st1 := Option.some.inj h
          rw [← h2]
          exact updateEstimate_initialized cfg ext st pc ts st2 b hinit hup

/-- Over any event sequence, initialization is never lost. -/
theorem evRun_initialized (cfg : OdomConfig) (evs : List Ev) :
    ∀ (st st2 : OdomState), st.initialized = true →
      evRun cfg st evs = some st2 → st2.initialized = true := by
  induction evs with
  | nil =>
      intro st st2 h1 h2
      have h3 : st = st2 := Option.some.inj h2
      rw [← h3]
      exact h1
  | cons e es ih =>
      intro st st2 h1 h2
      unfold evRun at h2
      cases hs : evStep cfg st e with
      | none => rw [hs] at h2; exact Option.noConfusion h2
      | some st1 =>
          rw [hs] at h2
          exact ih st1 st2 (evStep_initialized cfg st e st1 h1 hs) h2

/-- C6: on a first scan from `Uninitialized` the scan is always stored as
the query cloud and no registration is attempted (the result is
independent of the registration-side inputs, and the cycle reports no
update); with IMU use configured and no orientation sample ever received
the machine stays `Uninitialized`, otherwise it becomes `Initialized`; and
once `Initialized`, no sequence of further IMU or scan events ever brings
it back. -/
theorem C6_state_machine (cfg : OdomConfig) :
    (∀ (ext : CycleExt) (st : OdomState) (pc : ℕ) (ts : ℚ),
      st.initialized = false →
      ∃ st1 : OdomState,
        updateEstimate cfg ext st pc ts = some (st1, false) ∧
        st1.query = some pc ∧
        (∀ ext2 : CycleExt,
          updateEstimate cfg ext2 st pc ts = updateEstimate cfg ext st pc ts) ∧
        ((st.useImu = true ∧ st.imuDataReceived = false) →
          st1.initialized = false) ∧
        ((st.useImu = false ∨ st.imuDataReceived = true) →
          st1.initialized = true)) ∧
    (∀ (st : OdomState) (evs : List Ev) (st2 : OdomState),
      st.initialized = true → evRun cfg st evs = some st2 →
        st2.initialized = true) := by
  constructor
  · intro ext st pc ts h
    have huf : ∀ ext2 : CycleExt,
        updateEstimate cfg ext2 st pc ts =
          if st.useImu then
            (if st.imuDataReceived then
              some ({ st with query := some pc,
                              imuPreviousAttitude := st.imuFirstAttitude,
                              initialized := true }, false)
            else some ({ st with query := some pc }, false))
          else some ({ st with query := some pc, initialized := true }, false) := by
      intro ext2
      unfold updateEstimate
      rw [if_pos h]
    have hindep : ∀ ext2 : CycleExt,
        updateEstimate cfg ext2 st pc ts = updateEstimate cfg ext st pc ts := by
      intro ext2
      rw [huf ext2, huf ext]
    by_cases hu : st.useImu = true
    · by_cases hr : st.imuDataReceived = true
      · refine ⟨{ st with query := some pc,
                          imuPreviousAttitude := st.imuFirstAttitude,
                          initialized := true }, ?_, rfl, hindep, ?_, fun _ => rfl⟩
        · rw [huf ext, if_pos hu, if_pos hr]
        · intro hcon
          rw [hcon.2] at hr
          exact Bool.noConfusion hr
      · refine ⟨{ st with query := some pc }, ?_, rfl, hindep, fun _ => h, ?_⟩
        · rw [huf ext, if_pos hu, if_neg hr]
        · intro hor
          rcases hor with h1 | h1
          · rw [h1] at hu
            exact Bool.noConfusion hu
          · exact absurd h1 hr
    · refine ⟨{ st with query := some pc, initialized := true }, ?_, rfl, hindep,
        ?_, fun _ => rfl⟩
      · rw [huf ext, if_neg hu]
      · intro hcon
        exact absurd hcon.1 hu
  · intro st evs st2 h1 h2
    exact evRun_initialized cfg evs st st2 h1 h2

/-- Witness for C6: a first scan delivered to a freshly constructed
IMU-enabled instance with no orientation sample yet, and an already
initialized instance running an empty event sequence. -/
theorem C6_state_machine_witness :
    (∃ st1 : OdomState,
      updateEstimate cfgOff extId (mkInitialState true idT) 7 0 = some (st1, false) ∧
      st1.query = some 7 ∧
      (∀ ext2 : CycleExt,
        updateEstimate cfgOff ext2 (mkInitialState true idT) 7 0 =
          updateEstimate cfgOff extId (mkInitialState true idT) 7 0) ∧
      (((mkInitialState true idT).useImu = true ∧
        (mkInitialState true idT).imuDataReceived = false) →
        st1.initialized = false) ∧
      (((mkInitialState true idT).useImu = false ∨
        (mkInitialState true idT).imuDataReceived = true) →
        st1.initialized = true)) ∧
    stInit8.initialized = true :=
  ⟨(C6_state_machine cfgOff).1 extId (mkInitialState true idT) 7 0 rfl,
   (C6_state_machine cfgOff).2 stInit8 [] stInit8 rfl rfl⟩

/-- Unfolding of the uninitialized branch of `updateEstimate` (lines
215-232): the scan is stored as the query cloud in every sub-branch, and
only the initialization bookkeeping differs. -/
theorem updateEstimate_uninit (cfg : OdomConfig) (ext : CycleExt)
    (st : OdomState) (pc : ℕ) (ts : ℚ) (h : st.initialized = false) :
    updateEstimate cfg ext st pc ts =
      if st.useImu then
        (if st.imuDataReceived then
          some ({ st with query := some pc,
                          imuPreviousAttitude := st.imuFirstAttitude,
                          initialized := true }, false)
        else some ({ st with query := some pc }, false))
      else some ({ st with query := some pc, initialized := true }, false) := by
  unfold updateEstimate
  rw [if_pos h]

/-- C9: every initialized cycle that completes enqueues exactly one
rotation delta at the back of the delta queue, consumes at most one — only
when the (re-decided) fusion mode is active, and then exactly the oldest
entry — so per-cycle consumption never exceeds production; uninitialized
cycles leave the queue untouched. -/
theorem C9_delta_queue (cfg : OdomConfig) (ext : CycleExt) (st : OdomState)
    (pc : ℕ) (ts : ℚ) :
    (st.initialized = true → st.imuDeque ≠ [] →
      ∃ (st2 : OdomState) (b : Bool) (d : Mat3 ℚ),
        updateEstimate cfg ext st pc ts = some (st2, b) ∧
        ((st2.useImu = true ∧ st2.deltaQueue = (st.deltaQueue ++ [d]).tail) ∨
         (st2.useImu = false ∧ st2.deltaQueue = st.deltaQueue ++ [d])) ∧
        st.deltaQueue.length ≤ st2.deltaQueue.length + 1 ∧
        st2.deltaQueue.length ≤ st.deltaQueue.length + 1) ∧
    (st.initialized = false →
      ∀ (st2 : OdomState) (b : Bool),
        updateEstimate cfg ext st pc ts = some (st2, b) →
        st2.deltaQueue = st.deltaQueue) := by
  constructor
  · intro hinit hne
    cases hq : st.imuDeque with
    | nil => exact absurd hq hne
    | cons s0 srest =>
        rcases hpr : (s0 :: srest).foldl (alignFold ts) (s0.2, 1000) with ⟨att, d0⟩
        have hstep := updateEstimate_init_step cfg ext st pc ts hinit s0 srest hq att d0 hpr
        obtain ⟨s, hs⟩ := updateICPModel_isSome cfg ext
          { st with
            imuCurrentAttitude := att,
            deltaQueue := st.deltaQueue ++ [mulM att (invM st.imuPreviousAttitude)],
            useImu := decideMode cfg.checkImu st.useImu d0,
            reference := st.query,
            query := some pc,
            imuPreviousAttitude := att } (by simp)
        rcases updateICPModel_proj cfg ext _ s hs with ⟨-, hUse, -, hdisj⟩
        refine ⟨s, true, mulM att (invM st.imuPreviousAttitude), ?_, ?_, ?_, ?_⟩
        · rw [hstep, hs]
          rfl
        · rcases hdisj with ⟨h1, h2⟩ | ⟨h1, h2⟩
          · left
            exact ⟨hUse.trans h1, h2⟩
          · right
            exact ⟨hUse.trans h1, h2⟩
        · rcases hdisj with ⟨h1, h2⟩ | ⟨h1, h2⟩
          · rw [h2]
            simp
          · rw [h2]
            simp
            omega
        · rcases hdisj with ⟨h1, h2⟩ | ⟨h1, h2⟩
          · rw [h2]
            simp
          · rw [h2]
            simp
  · intro hinit st2 b hup
    rw [updateEstimate_uninit cfg ext st pc ts hinit] at hup
    by_cases hu : st.useImu = true
    · rw [if_pos hu] at hup
      by_cases hr : st.imuDataReceived = true
      · rw [if_pos hr] at hup
        simp only [Option.some.injEq, Prod.mk.injEq] at hup
        rw [← hup.1]
      · rw [if_neg hr] at hup
        simp only [Option.some.injEq, Prod.mk.injEq] at hup
        rw [← hup.1]
    · rw [if_neg hu] at hup
      simp only [Option.some.injEq, Prod.mk.injEq] at hup
      rw [← hup.1]

/-- Witness for C9: one initialized cycle on a one-sample buffer with an
empty delta queue — one delta produced, one consumed (fusion stays on). -/
theorem C9_delta_queue_witness :
    ∃ (st2 : OdomState) (b : Bool) (d : Mat3 ℚ),
      updateEstimate cfgOff extId stInit9 3 5 = some (st2, b) ∧
      ((st2.useImu = true ∧ st2.deltaQueue = (stInit9.deltaQueue ++ [d]).tail) ∨
       (st2.useImu = false ∧ st2.deltaQueue = stInit9.deltaQueue ++ [d])) ∧
      stInit9.deltaQueue.length ≤ st2.deltaQueue.length + 1 ∧
      st2.deltaQueue.length ≤ stInit9.deltaQueue.length + 1 :=
  (C9_delta_queue cfgOff extId stInit9 3 5).1 rfl (by exact List.cons_ne_nil _ _)

/-- C8 counterexample: an initialized cycle with fusion active and an empty
delta queue.  The claim says the output transform equals the unmodified
registration transform; but `UpdateICP` pops `imu_attitude_deque_.front()`
with no emptiness check (lines 343-344), so there is no fallback path at
all — the modelled run is undefined (`none`), and in particular no state
with the registration transform as incremental estimate is produced. -/
theorem C8_counterexample :
    updateICPModel cfgOff extId stInit8b = none ∧
    ¬ ∃ s : OdomState, updateICPModel cfgOff extId stInit8b = some s ∧
        s.incremental = extId.icpT := by
  have h : updateICPModel cfgOff extId stInit8b = none := rfl
  refine ⟨h, ?_⟩
  rintro ⟨s, hs, -⟩
  rw [h] at hs
  exact Option.noConfusion hs

/-- C8 as amended: when `use_imu_data_` is false the cycle's output
transform is the unmodified registration transform (and the delta queue is
untouched); when `use_imu_data_` is true and no delta has been recorded,
the code has no fallback — the unchecked `front()`/`pop_front()` is
undefined behaviour, modelled as `none` (a case `UpdateEstimate` never
produces, since it enqueues a delta before invoking `UpdateICP`). -/
theorem C8_fallback_amended (cfg : OdomConfig) (ext : CycleExt) (st : OdomState) :
    (st.useImu = false →
      ∃ s, updateICPModel cfg ext st = some s ∧
        s.incremental = ext.icpT ∧ s.deltaQueue = st.deltaQueue) ∧
    (st.useImu = true → st.deltaQueue = [] →
      updateICPModel cfg ext st = none) := by
  constructor
  · intro hu
    refine ⟨integrateInto cfg ext ext.icpT st, ?_,
      integrateInto_incremental cfg ext ext.icpT st,
      integrateInto_deltaQueue cfg ext ext.icpT st⟩
    simp [updateICPModel, hu]
  · intro hu hq
    simp [updateICPModel, hu, hq]

/-- Witness for C8 as amended: with fusion off the registration transform
passes through unmodified; with fusion on and an empty queue the run is
undefined. -/
theorem C8_fallback_amended_witness :
    (∃ s, updateICPModel cfgOff extId stInit8 = some s ∧
      s.incremental = extId.icpT ∧ s.deltaQueue = stInit8.deltaQueue) ∧
    updateICPModel cfgGate extId stInit8b = none :=
  ⟨(C8_fallback_amended cfgOff extId stInit8).1 rfl,
   (C8_fallback_amended cfgGate extId stInit8b).2 rfl rfl⟩

/-- The sine function moves points by no more than the angle difference:
the quantitative tool for turning a gap between sines into a lower bound
on the gap between angles. -/
theorem abs_sin_sub_sin_le (a b : ℝ) :
    |Real.sin a - Real.sin b| ≤ |a - b| := by
  rw [Real.sin_sub_sin, abs_mul, abs_mul, abs_two]
  have h1 : |Real.sin ((a - b) / 2)| ≤ |(a - b) / 2| := Real.abs_sin_le_abs
  have h2 : |Real.cos ((a + b) / 2)| ≤ 1 := Real.abs_cos_le_one _
  have h3 : 2 * |Real.sin ((a - b) / 2)| * |Real.cos ((a + b) / 2)| ≤
      2 * |(a - b) / 2| * 1 := by
    apply mul_le_mul _ h2 (abs_nonneg _) (by positivity)
    apply mul_le_mul_of_nonneg_left h1 (by norm_num)
  have h4 : 2 * |(a - b) / 2| * 1 = |a - b| := by
    rw [abs_div, abs_two]
    ring
  rw [h4] at h3
  exact h3

/-- The sine and cosine of `arcsin (4/5)` are `4/5` and `3/5`. -/
theorem sin_cos_aCX : Real.sin aCX = 4/5 ∧ Real.cos aCX = 3/5 := by
  constructor
  · exact Real.sin_arcsin (by norm_num) (by norm_num)
  · rw [aCX, Real.cos_arcsin]
    have h : (1 : ℝ) - (4/5) ^ 2 = (3/5) ^ 2 := by norm_num
    rw [h, Real.sqrt_sq (by norm_num)]

/-- `deltaCX` is indeed `Rz(aCX) * Ry(aCX) * Rx(aCX)`: a rotation with
known ZYX Euler angles. -/
theorem deltaCX_eq : mulM (mulM (RzM aCX) (RyM aCX)) (RxM aCX) = deltaCX := by
  obtain ⟨hs, hc⟩ := sin_cos_aCX
  simp only [mulM, RzM, RyM, RxM, hs, hc, deltaCX, Mat3.mk.injEq]
  norm_num

/-- The pitch that `getRPY` extracts from `deltaCX` is exactly `aCX`. -/
theorem deltaCX_pitch : (getRPY deltaCX).2.1 = aCX := by
  simp only [getRPY, deltaCX, aCX]
  norm_num

/-- The cosine of the roll that `getRPY` extracts from `deltaCX` is
`3/5`. -/
theorem deltaCX_roll_cos : Real.cos ((getRPY deltaCX).1) = 3/5 := by
  have hz_ne : ((9/25 : ℝ) : ℂ) + ((12/25 : ℝ) : ℂ) * Complex.I ≠ 0 := by
    intro h
    have h2 := congrArg Complex.re h
    simp at h2
  have habs : Complex.abs (((9/25 : ℝ) : ℂ) + ((12/25 : ℝ) : ℂ) * Complex.I) = 3/5 := by
    rw [Complex.abs_apply, Complex.normSq_apply]
    simp only [Complex.add_re, Complex.ofReal_re, Complex.mul_re, Complex.I_re,
      Complex.I_im, Complex.ofReal_im, Complex.add_im, Complex.mul_im]
    have h : ((9:ℝ)/25 + (12/25 * 0 - 0 * 1)) * (9/25 + (12/25 * 0 - 0 * 1)) +
        (0 + (12/25 * 1 + 0 * 0)) * (0 + (12/25 * 1 + 0 * 0)) = (3/5 : ℝ) ^ 2 := by
      norm_num
    rw [h, Real.sqrt_sq (by norm_num)]
  have hform : (getRPY deltaCX).1 =
      Complex.arg (((9/25 : ℝ) : ℂ) + ((12/25 : ℝ) : ℂ) * Complex.I) := by
    simp only [getRPY, deltaCX, atan2]
  rw [hform, Complex.cos_arg hz_ne, habs]
  simp only [Complex.add_re, Complex.ofReal_re, Complex.mul_re, Complex.I_re,
    Complex.I_im, Complex.ofReal_im]
  norm_num

/-- The yaw that `getRPY` extracts from the identity rotation is `0`. -/
theorem oneM_yaw : (getRPY (oneM : Mat3 ℝ)).2.2 = 0 := by
  have h : (getRPY (oneM : Mat3 ℝ)).2.2 =
      Complex.arg (((1 : ℝ) : ℂ) + ((0 : ℝ) : ℂ) * Complex.I) := by
    simp only [getRPY, oneM, atan2]
  rw [h]
  have h2 : ((1 : ℝ) : ℂ) + ((0 : ℝ) : ℂ) * Complex.I = 1 := by
    simp
  rw [h2, Complex.arg_one]

/-- The pitch that `getRPY` extracts from the fusion composite built from
`deltaCX` and the identity registration rotation is `arcsin (12/25)` — not
the `arcsin (4/5)` fed in through `deltaCX`. -/
theorem fuseCX_pitch :
    (getRPY (fuseRotation deltaCX oneM)).2.1 = Real.arcsin (12/25) := by
  have ha20 : (fuseRotation deltaCX oneM).a20 = -(12/25 : ℝ) := by
    simp only [fuseRotation, mulM, RxM, RyM, RzM]
    rw [oneM_yaw, deltaCX_pitch]
    rw [Real.cos_zero, Real.sin_zero]
    have hs : Real.sin aCX = 4/5 := sin_cos_aCX.1
    rw [hs, deltaCX_roll_cos]
    ring
  have h : (getRPY (fuseRotation deltaCX oneM)).2.1 =
      Real.arcsin (-((fuseRotation deltaCX oneM).a20)) := rfl
  rw [h, ha20]
  norm_num

/-- C1 counterexample: feed `fuse` the synthetic IMU delta `deltaCX`
(ZYX Euler angles `roll = pitch = yaw = arcsin (4/5)`, about 53 degrees)
and a registration transform with identity rotation (yaw exactly `0`).
The claim says the composite's extracted pitch equals the IMU delta's
pitch within numerical tolerance; in fact extraction (`getRPY`, ZYX
convention) does not invert the X-then-Y-then-Z recomposition, and the two
pitches differ by at least `8/25` of a radian (over 18 degrees). -/
theorem C1_counterexample :
    mulM (mulM (RzM aCX) (RyM aCX)) (RxM aCX) = deltaCX ∧
    (getRPY deltaCX).2.1 = aCX ∧
    (getRPY (oneM : Mat3 ℝ)).2.2 = 0 ∧
    (getRPY (fuse ⟨⟨0, 0, 0⟩, oneM⟩ deltaCX).rotation).2.1 ≠
      (getRPY deltaCX).2.1 ∧
    (8 : ℝ)/25 ≤
      |(getRPY (fuse ⟨⟨0, 0, 0⟩, oneM⟩ deltaCX).rotation).2.1 -
        (getRPY deltaCX).2.1| := by
  have hrot : (fuse ⟨⟨0, 0, 0⟩, oneM⟩ deltaCX).rotation =
      fuseRotation deltaCX oneM := rfl
  have hbound : (8 : ℝ)/25 ≤
      |(getRPY (fuse ⟨⟨0, 0, 0⟩, oneM⟩ deltaCX).rotation).2.1 -
        (getRPY deltaCX).2.1| := by
    rw [hrot, fuseCX_pitch, deltaCX_pitch, aCX]
    have hs1 : Real.sin (Real.arcsin (12/25)) = 12/25 :=
      Real.sin_arcsin (by norm_num) (by norm_num)
    have hs2 : Real.sin (Real.arcsin (4/5)) = 4/5 :=
      Real.sin_arcsin (by norm_num) (by norm_num)
    have hL := abs_sin_sub_sin_le (Real.arcsin (12/25)) (Real.arcsin (4/5))
    rw [hs1, hs2] at hL
    have habs : |(12/25 : ℝ) - 4/5| = 8/25 := by
      rw [abs_of_nonpos (by norm_num)]
      norm_num
    rw [habs] at hL
    exact hL
  refine ⟨deltaCX_eq, deltaCX_pitch, oneM_yaw, ?_, hbound⟩
  intro heq
  rw [heq, sub_self, abs_zero] at hbound
  norm_num at hbound

/-- C1 as amended: when fusion runs, the registration transform's rotation
block is replaced by the ordered single-axis composite
`Rx(roll_imu) * Ry(pitch_imu) * Rz(yaw_registration)` and the translation
is untouched; but because extraction uses the ZYX (`getRPY`) convention
while recomposition is XYZ-ordered, the composite's extracted angles do
not in general reproduce the spliced inputs (see the counterexample) —
they do when the IMU delta's roll and pitch are zero, in which case the
composite is the pure yaw rotation and extraction returns exactly
`(0, 0, yaw)` for any yaw in `(-pi, pi]`. -/
theorem C1_fuse_amended :
    (∀ (T : Transform3 ℝ) (delta : Mat3 ℝ),
      (fuse T delta).translation = T.translation ∧
      (fuse T delta).rotation =
        mulM (mulM (RxM (getRPY delta).1) (RyM (getRPY delta).2.1))
          (RzM (getRPY T.rotation).2.2)) ∧
    (∀ y : ℝ, y ∈ Set.Ioc (-Real.pi) Real.pi →
      getRPY (fuseRotation oneM (RzM y)) = (0, 0, y)) := by
  constructor
  · intro T delta
    exact ⟨rfl, rfl⟩
  · intro y hy
    have harg0 : Complex.arg (((1 : ℝ) : ℂ) + ((0 : ℝ) : ℂ) * Complex.I) = 0 := by
      have h2 : ((1 : ℝ) : ℂ) + ((0 : ℝ) : ℂ) * Complex.I = 1 := by simp
      rw [h2, Complex.arg_one]
    have h0 : (getRPY (oneM : Mat3 ℝ)).1 = 0 := by
      have h : (getRPY (oneM : Mat3 ℝ)).1 =
          Complex.arg (((1 : ℝ) : ℂ) + ((0 : ℝ) : ℂ) * Complex.I) := rfl
      rw [h, harg0]
    have h1 : (getRPY (oneM : Mat3 ℝ)).2.1 = 0 := by
      have h : (getRPY (oneM : Mat3 ℝ)).2.1 = Real.arcsin (-(0 : ℝ)) := rfl
      rw [h, neg_zero, Real.arcsin_zero]
    have hyy : (getRPY (RzM y)).2.2 = y := by
      have h : (getRPY (RzM y)).2.2 =
          Complex.arg ((Real.cos y : ℂ) + (Real.sin y : ℂ) * Complex.I) := rfl
      rw [h, Complex.ofReal_cos, Complex.ofReal_sin]
      exact Complex.arg_cos_add_sin_mul_I hy
    have hcomp : fuseRotation oneM (RzM y) = RzM y := by
      simp only [fuseRotation, h0, h1, hyy]
      simp only [mulM, RxM, RyM, RzM, Real.cos_zero, Real.sin_zero, Mat3.mk.injEq]
      norm_num
    rw [hcomp]
    have hroll : (getRPY (RzM y)).1 = 0 := by
      have h : (getRPY (RzM y)).1 =
          Complex.arg (((1 : ℝ) : ℂ) + ((0 : ℝ) : ℂ) * Complex.I) := rfl
      rw [h, harg0]
    have hpitch0 : (getRPY (RzM y)).2.1 = 0 := by
      have h : (getRPY (RzM y)).2.1 = Real.arcsin (-(0 : ℝ)) := rfl
      rw [h, neg_zero, Real.arcsin_zero]
    exact Prod.ext hroll (Prod.ext hpitch0 hyy)

/-- Witness for C1 as amended, at yaw `0`: the composite built from a
zero-roll zero-pitch delta and a zero-yaw registration rotation
round-trips to `(0, 0, 0)`. -/
theorem C1_fuse_amended_witness :
    getRPY (fuseRotation oneM (RzM 0)) = (0, 0, 0) :=
  C1_fuse_amended.2 0
    (Set.mem_Ioc.mpr ⟨neg_lt_zero.mpr Real.pi_pos, Real.pi_nonneg⟩)
